import Mathlib

/-!
Fixed-window rate limiter (`ratelimiter.go`).

A shallow embedding of the fiber middleware built by `ratelimiter.New`, of the
go-redis calls it makes (`Exists`, `TxPipeline` with `Set` and `Decr`, `Get`,
`Decr`) and of the Redis commands these send.

Modelling conventions

* `time.Duration` is an integer number of nanoseconds (`Int`), negative values
  included.
* Instants are readings of the Redis server clock in milliseconds, the unit in
  which Redis keeps expiry times. Every store command of a decision has its own
  instant (`Times`): the commands are separate round trips and a record may
  expire between two of them.
* A key holds the canonical decimal string of an integer (`Value.int`), any other
  string (`Value.text`, which carries what `strconv.Atoi` returns on it), or a
  value of another Redis type (`Value.other`). Go `int` and Redis integers are 64
  bits wide; the only operation that can leave that range is `DECR` at the
  smallest one, which Redis refuses.
* A store command succeeds, is answered by Redis with an error, or fails in the
  network: it never reached the server (`Fault.lost`) or was applied but its reply
  was lost (`Fault.replyLost`).
* `float64` arithmetic in `Duration.Seconds()` is computed exactly: every
  operation rounds its exact result to the nearest 53-bit significand, ties to
  even (`round64`).
-/

namespace RateLimiter

/-! ## Request context and configuration -/

/-- Value returned by `c.Locals(key)`: nothing stored, a string, or a value of
another dynamic type.  The type assertion `.(string)` succeeds on `str` only. -/
inductive Local where
  | absent
  | str (s : String)
  | other
deriving DecidableEq, Repr

/-- Request-scoped locals of a `*fiber.Ctx`. -/
abbrev Ctx := String → Local

/-- The `Options` struct (the Redis client and the context are the store, the
instants and the fault plan given to `handler`). `QuotaMap` is `map[string]int`,
`Duration` a `time.Duration` in nanoseconds. -/
structure Options where
  QuotaMap : String → Option Int
  UserIDKey : String
  RankKey : String
  Duration : Int

/-- Nanoseconds in one millisecond (`time.Millisecond`). -/
def Millisecond : Int := 1000000

/-- Nanoseconds in one second (`time.Second`). -/
def Second : Int := 1000000000

/-- Nanoseconds in one hour (`time.Hour`). -/
def Hour : Int := 3600 * Second

/-! ## `Duration.Seconds()` and the conversion to `int` -/

/-- Nearest integer to `a / b`, ties to even (`b` positive). -/
def roundHalfEven (a b : Nat) : Nat :=
  let q := a / b
  let r := a % b
  if 2 * r < b then q
  else if b < 2 * r then q + 1
  else if q % 2 = 0 then q
  else q + 1

/-- Least `k` from `k` on, within the fuel, with `2 ^ 52 * den ≤ num * 2 ^ k`. -/
def scaleUp : Nat → Nat → Nat → Nat → Nat
  | 0, _, _, k => k
  | fuel + 1, num, den, k =>
    if 2 ^ 52 * den ≤ num * 2 ^ k then k else scaleUp fuel num den (k + 1)

/-- Least `j` from `j` on, within the fuel, with `num < 2 ^ 53 * den * 2 ^ j`. -/
def scaleDown : Nat → Nat → Nat → Nat → Nat
  | 0, _, _, j => j
  | fuel + 1, num, den, j =>
    if num < 2 ^ 53 * den * 2 ^ j then j else scaleDown fuel num den (j + 1)

/-- The `float64` nearest to the non-negative rational `num / den` (normal range),
returned as `(m, k)` standing for `m / 2 ^ k`: the significand is scaled into
`[2 ^ 52, 2 ^ 53)` and rounded to an integer, ties to even. -/
def round64 (num den : Nat) : Nat × Nat :=
  if num = 0 then (0, 0)
  else if num < 2 ^ 53 * den then
    let k := scaleUp 1100 num den 0
    (roundHalfEven (num * 2 ^ k) den, k)
  else
    let j := scaleDown 1100 num den 0
    (roundHalfEven num (den * 2 ^ j) * 2 ^ j, 0)

/-- The function `int(d.Seconds())` for a non-negative duration of `d` ns:
`sec := d / Second; nsec := d % Second; float64(sec) + float64(nsec)/1e9`,
then truncation. -/
def secondsNat (d : Nat) : Nat :=
  let sec := d / 1000000000
  let nsec := d % 1000000000
  let a := round64 sec 1
  let q := round64 nsec 1000000000
  let sum := round64 (a.1 * 2 ^ q.2 + q.1 * 2 ^ a.2) (2 ^ (a.2 + q.2))
  sum.1 / 2 ^ sum.2

/-- The value `int(d.Seconds())`. Go division and remainder truncate toward
zero and `float64` rounding is symmetric, so a negative duration gives the
negated value of its magnitude. -/
def seconds (d : Int) : Int :=
  if 0 ≤ d then (secondsNat d.toNat : Int) else -(secondsNat (-d).toNat : Int)

/-! ## go-redis expiration formatting -/

/-- The go-redis helper `usePrecise`: milliseconds are sent unless the duration is
a whole number of seconds. -/
def usePrecise (dur : Int) : Bool :=
  decide (dur < Second) || decide (dur % Second ≠ 0)

/-- The go-redis helper `formatMs`: whole milliseconds, 1 for a positive duration
below one millisecond. -/
def formatMs (dur : Int) : Int :=
  if 0 < dur ∧ dur < Millisecond then 1 else dur / Millisecond

/-- The go-redis helper `formatSec`: whole seconds, 1 for a positive duration
below one second. -/
def formatSec (dur : Int) : Int :=
  if 0 < dur ∧ dur < Second then 1 else dur / Second

/-- Time-to-live in milliseconds that `Set` with a positive expiration asks of
Redis: `PX formatMs` or `EX formatSec`. -/
def ttlMs (dur : Int) : Nat :=
  if usePrecise dur then (formatMs dur).toNat else (formatSec dur).toNat * 1000

/-! ## The Redis store -/

/-- Smallest `int64` (Redis integers are `long long`). -/
def minInt64 : Int := -9223372036854775808

deriving instance DecidableEq for Except

/-- What a key holds. -/
inductive Value where
  /-- The canonical decimal string of `n` -/
  | int (n : Int)
  /-- Any other string; `atoi` is the result of `strconv.Atoi` on it -/
  | text (atoi : Except String Int)
  /-- A value that is not a string (list, hash, ...) -/
  | other
deriving DecidableEq, Repr

/-- One key of the store: its value and its expiry instant in server
milliseconds (`none`: the key has no expiry). -/
structure Record where
  value : Value
  expiresAt : Option Nat
deriving DecidableEq, Repr

/-- A record is live at server time `now`: Redis expires a key once the clock is
past its expiry time. -/
def Record.live (now : Nat) (r : Record) : Bool :=
  match r.expiresAt with
  | none => true
  | some e => decide (now ≤ e)

/-- Remaining time-to-live of a record at `now` in milliseconds (Redis `PTTL`),
`none` when the record has no expiry. -/
def Record.ttl (now : Nat) (r : Record) : Option Nat :=
  r.expiresAt.map (fun e => e - now)

/-- Store contents; expired records are removed lazily, every command looks a
key up through `Store.find`. -/
abbrev Store := String → Option Record

/-- The live record under `key` at instant `now`, if any. -/
def Store.find (s : Store) (now : Nat) (key : String) : Option Record :=
  match s key with
  | some r => if r.live now then some r else none
  | none => none

/-- Overwrite one key. -/
def Store.put (s : Store) (key : String) (r : Record) : Store :=
  fun k => if k = key then some r else s k

/-- The empty store. -/
def emptyStore : Store := fun _ => none

/-- Error of a command applied to a key of another type. -/
def wrongType : String := "WRONGTYPE Operation against a key holding the wrong kind of value"

/-- Redis `EXISTS key`: 1 when a live record is present, else 0. -/
def cmdExists (now : Nat) (key : String) (s : Store) : Except String Int × Store :=
  (.ok (if (s.find now key).isSome then 1 else 0), s)

/-- Expiry instant written by `Set(key, value, expiration)` at `now`: a positive
expiration is sent as `PX`/`EX`, `KeepTTL` (-1) as `KEEPTTL`, which keeps the
expiry of a live record, and any other expiration stores the key without expiry. -/
def expiryOf (s : Store) (now : Nat) (key : String) (expiration : Int) : Option Nat :=
  if 0 < expiration then some (now + ttlMs expiration)
  else if expiration = -1 then
    match s.find now key with
    | some r => r.expiresAt
    | none => none
  else none

/-- Redis `SET key value` as sent by `Set`: the value is the decimal string of
`value`, the key is overwritten unconditionally. -/
def cmdSet (now : Nat) (key : String) (value : Int) (expiration : Int) (s : Store) : Store :=
  s.put key ⟨.int value, expiryOf s now key expiration⟩

/-- Result of decrementing a value: Redis accepts the canonical decimal string
of an `int64` only and refuses to go below the smallest one. -/
def Value.decr : Value → Except String Int
  | .int n => if n ≤ minInt64 then .error "ERR increment or decrement would overflow"
    else .ok (n - 1)
  | .text _ => .error "ERR value is not an integer or out of range"
  | .other => .error wrongType

/-- Redis `DECR key`: decrements a live record keeping its expiry; an absent key
is created as `0` without expiry and then decremented. -/
def cmdDecr (now : Nat) (key : String) (s : Store) : Except String Int × Store :=
  match s.find now key with
  | some r =>
    match r.value.decr with
    | .ok n => (.ok n, s.put key ⟨.int n, r.expiresAt⟩)
    | .error e => (.error e, s)
  | none => (.ok (-1), s.put key ⟨.int (-1), none⟩)

/-- Reply to `GET` on a value: a string is returned as it is. -/
def Value.get : Value → Except String Value
  | .other => .error wrongType
  | v => .ok v

/-- Redis `GET key`: the string of a live record, the `redis.Nil` error when there
is none. -/
def cmdGet (now : Nat) (key : String) (s : Store) : Except String Value × Store :=
  match s.find now key with
  | some r => (r.value.get, s)
  | none => (.error "redis: nil", s)

/-- The function `strconv.Atoi` on a string read from Redis (`GET` never returns a
value that is not a string). -/
def atoi : Value → Except String Int
  | .int n => .ok n
  | .text a => a
  | .other => .error wrongType

/-- The transaction `pipe.Set(key, limit, Duration); pipe.Decr(key); pipe.Exec()`:
both commands are applied at the same instant with nothing in between; `Exec`
returns the error of `DECR` if it has one (the `SET` stays applied). -/
def cmdExec (now : Nat) (key : String) (limit : Int) (expiration : Int) (s : Store) :
    Except String Int × Store :=
  cmdDecr now key (cmdSet now key limit expiration s)

/-- How the network treats one command. -/
inductive Fault where
  | ok
  | lost (msg : String)
  | replyLost (msg : String)
deriving DecidableEq, Repr

/-- Issue one command under a fault. -/
def call {α : Type} (f : Fault) (op : Store → Except String α × Store) (s : Store) :
    Except String α × Store :=
  match f with
  | .ok => op s
  | .lost msg => (.error msg, s)
  | .replyLost msg => (.error msg, (op s).2)

/-- The fault met by each of the commands a decision may issue (each is issued
at most once per decision). -/
structure Faults where
  onExists : Fault
  onExec : Fault
  onGet : Fault
  onDecr : Fault

/-- No command fails in the network. -/
def noFaults : Faults := ⟨.ok, .ok, .ok, .ok⟩

/-- The server instant at which each command of a decision is executed. -/
structure Times where
  atExists : Nat
  atExec : Nat
  atGet : Nat
  atDecr : Nat

/-- All commands of a decision executed at the same server instant. -/
def Times.same (now : Nat) : Times := ⟨now, now, now, now⟩

/-- Store commands as they appear on the wire. -/
inductive Cmd where
  | existsKey (key : String)
  | setDecrTx (key : String) (value : Int) (expiration : Int)
  | getKey (key : String)
  | decrKey (key : String)
deriving DecidableEq, Repr

/-- The key a command addresses. -/
def Cmd.key : Cmd → String
  | .existsKey k => k
  | .setDecrTx k _ _ => k
  | .getKey k => k
  | .decrKey k => k

/-- One issued command with the error it returned, if any. -/
structure Call where
  cmd : Cmd
  err : Option String
deriving DecidableEq, Repr

/-! ## The middleware -/

/-- What the handler hands back to fiber. -/
inductive Response where
  /-- Status 400 with the JSON message "Missing userID or rank in Locals" -/
  | badRequest
  /-- Error returned to fiber: `fiber.NewError(code, message)` -/
  | fiberError (code : Nat) (message : String)
  /-- Status 429 with the `Retry-After` header -/
  | tooManyRequests (retryAfter : Int)
  /-- Call of `c.Next()`: the request is admitted -/
  | next
deriving DecidableEq, Repr

/-- Result of one run of the handler: the response, the store afterwards and the
commands issued, in order. -/
structure Outcome where
  response : Response
  store : Store
  log : List Call

/-- Lines 44-88 of the closure returned by `New`: the decision for identity
`userID` and rank `rank`, its commands executed at the instants `t` against
store `s`. -/
def decision (options : Options) (userID rank : String) (f : Faults) (t : Times)
    (s : Store) : Outcome :=
  let key := "rate:" ++ userID
  let r1 := call f.onExists (cmdExists t.atExists key) s
  match r1.1 with
  | .error e => ⟨.fiberError 500 e, r1.2, [⟨.existsKey key, some e⟩]⟩
  | .ok exist =>
    if exist ≠ 1 then
      match options.QuotaMap rank with
      | none => ⟨.fiberError 403 "Invalid rank", r1.2, [⟨.existsKey key, none⟩]⟩
      | some limit =>
        let r2 := call f.onExec (cmdExec t.atExec key limit options.Duration) r1.2
        match r2.1 with
        | .error e =>
          ⟨.fiberError 500 e, r2.2,
            [⟨.existsKey key, none⟩, ⟨.setDecrTx key limit options.Duration, some e⟩]⟩
        | .ok _ =>
          ⟨.next, r2.2,
            [⟨.existsKey key, none⟩, ⟨.setDecrTx key limit options.Duration, none⟩]⟩
    else
      let r2 := call f.onGet (cmdGet t.atGet key) r1.2
      match r2.1 with
      | .error e =>
        ⟨.fiberError 500 e, r2.2, [⟨.existsKey key, none⟩, ⟨.getKey key, some e⟩]⟩
      | .ok quotaStr =>
        match atoi quotaStr with
        | .error e =>
          ⟨.fiberError 500 e, r2.2, [⟨.existsKey key, none⟩, ⟨.getKey key, none⟩]⟩
        | .ok quota =>
          if quota ≤ 0 then
            ⟨.tooManyRequests (seconds options.Duration), r2.2,
              [⟨.existsKey key, none⟩, ⟨.getKey key, none⟩]⟩
          else
            let r3 := call f.onDecr (cmdDecr t.atDecr key) r2.2
            match r3.1 with
            | .error e =>
              ⟨.fiberError 500 e, r3.2,
                [⟨.existsKey key, none⟩, ⟨.getKey key, none⟩, ⟨.decrKey key, some e⟩]⟩
            | .ok _ =>
              ⟨.next, r3.2,
                [⟨.existsKey key, none⟩, ⟨.getKey key, none⟩, ⟨.decrKey key, none⟩]⟩

/-- The closure returned by `New`, run on request context `c`: lines 35-42
extract the two locals, `decision` is the rest. -/
def handler (options : Options) (c : Ctx) (f : Faults) (t : Times) (s : Store) : Outcome :=
  match c options.UserIDKey, c options.RankKey with
  | .str userID, .str rank => decision options userID rank f t s
  | _, _ => ⟨.badRequest, s, []⟩

/-- The defaults `New` fills in before building the handler. -/
def withDefaults (options : Options) : Options :=
  { QuotaMap := options.QuotaMap
    UserIDKey := if options.UserIDKey = "" then "userID" else options.UserIDKey
    RankKey := if options.RankKey = "" then "rank" else options.RankKey
    Duration := if options.Duration = 0 then 24 * Hour else options.Duration }

/-- The middleware constructor `New`. -/
def New (options : Options) : Ctx → Faults → Times → Store → Outcome :=
  handler (withDefaults options)

/-- A request context carrying a string identity and a string rank under the
given keys. -/
def ctxOf (options : Options) (userID rank : String) : Ctx :=
  fun k =>
    if k = (withDefaults options).UserIDKey then .str userID
    else if k = (withDefaults options).RankKey then .str rank
    else .absent

/-- Serve the same request context once per entry of the list, one decision after
the other and without network failure; returns the responses and the final
store. -/
def serve (options : Options) (c : Ctx) : List Times → Store → List Response × Store
  | [], s => ([], s)
  | t :: ts, s =>
    let out := New options c noFaults t s
    let rest := serve options c ts out.store
    (out.response :: rest.1, rest.2)

/-- Example configuration: rank "free" has limit 3, window 60 s, default key names. -/
def exampleOptions : Options :=
  ⟨fun r => if r = "free" then some 3 else none, "", "", 60 * Second⟩

/-- Example configuration with a rank of limit 0. -/
def zeroOptions : Options :=
  ⟨fun r => if r = "blocked" then some 0 else none, "", "", 60 * Second⟩

/-- Example configuration with a rank of limit 1. -/
def singleOptions : Options :=
  ⟨fun r => if r = "free" then some 1 else none, "", "", 60 * Second⟩

/-- Example configuration with a window of 2.5 ms. -/
def fractionalOptions : Options :=
  ⟨fun r => if r = "free" then some 3 else none, "", "", 2500000⟩

/-- Example configuration with a negative window of -5 s. -/
def negativeOptions : Options :=
  ⟨fun r => if r = "free" then some 3 else none, "", "", -5 * Second⟩

/-- Example configuration with a rank whose limit is the smallest `int`. -/
def minLimitOptions : Options :=
  ⟨fun r => if r = "owing" then some minInt64 else none, "", "", 60 * Second⟩

/-- Example configuration with a window of 16777216.999999999 s. -/
def longOptions : Options :=
  ⟨fun r => if r = "free" then some 3 else none, "", "", 16777216999999999⟩

/-- The three instants of a decision on a live record all fall within the life
of record `r`. -/
def Times.within (t : Times) (r : Record) : Bool :=
  r.live t.atExists && r.live t.atGet && r.live t.atDecr

/-! ## Interleaved execution

The same decision cut at its store commands: one `step` runs the code up to and
including the next command, so that the commands of several decisions can be
interleaved. -/

/-- Control point of a running decision. -/
inductive Pc where
  /-- Before `Exists` (line 46) -/
  | start
  /-- After `Exists` returned `exist` (line 51) -/
  | checked (exist : Int)
  /-- After `Get` returned a positive quota, `Decr` pending (line 84) -/
  | admitted
  /-- The handler returned -/
  | done (r : Response)
deriving DecidableEq, Repr

/-- One step of a decision for `userID` and `rank`: the code from control point
`pc` up to and including the next store command, executed at `now` under fault `f`. -/
def step (options : Options) (userID rank : String) (f : Fault) (now : Nat) (s : Store) :
    Pc → Pc × Store
  | .start =>
    let r1 := call f (cmdExists now ("rate:" ++ userID)) s
    match r1.1 with
    | .error e => (.done (.fiberError 500 e), r1.2)
    | .ok exist => (.checked exist, r1.2)
  | .checked exist =>
    if exist ≠ 1 then
      match options.QuotaMap rank with
      | none => (.done (.fiberError 403 "Invalid rank"), s)
      | some limit =>
        let r2 := call f (cmdExec now ("rate:" ++ userID) limit options.Duration) s
        match r2.1 with
        | .error e => (.done (.fiberError 500 e), r2.2)
        | .ok _ => (.done .next, r2.2)
    else
      let r2 := call f (cmdGet now ("rate:" ++ userID)) s
      match r2.1 with
      | .error e => (.done (.fiberError 500 e), r2.2)
      | .ok quotaStr =>
        match atoi quotaStr with
        | .error e => (.done (.fiberError 500 e), r2.2)
        | .ok quota =>
          if quota ≤ 0 then (.done (.tooManyRequests (seconds options.Duration)), r2.2)
          else (.admitted, r2.2)
  | .admitted =>
    let r3 := call f (cmdDecr now ("rate:" ++ userID)) s
    match r3.1 with
    | .error e => (.done (.fiberError 500 e), r3.2)
    | .ok _ => (.done .next, r3.2)
  | .done r => (.done r, s)

/-- The fault a decision meets at control point `pc` under the plan `f`. -/
def Faults.at (f : Faults) : Pc → Fault
  | .start => f.onExists
  | .checked exist => if exist ≠ 1 then f.onExec else f.onGet
  | .admitted => f.onDecr
  | .done _ => .ok

/-- The instant of the command issued from control point `pc` under `t`. -/
def Times.at (t : Times) : Pc → Nat
  | .start => t.atExists
  | .checked exist => if exist ≠ 1 then t.atExec else t.atGet
  | .admitted => t.atDecr
  | .done _ => 0

/-- Run one decision alone: three steps. -/
def runAlone (options : Options) (userID rank : String) (f : Faults) (t : Times) (s : Store) :
    Pc × Store :=
  let a := step options userID rank (f.at .start) (t.at .start) s .start
  let b := step options userID rank (f.at a.1) (t.at a.1) a.2 a.1
  step options userID rank (f.at b.1) (t.at b.1) b.2 b.1

/-- Run concurrent decisions of one identity and rank under a schedule: each
entry of the schedule names the decision that performs its next step. All
commands succeed and are executed at instant `now`. -/
def interleave (options : Options) (userID rank : String) (now : Nat) :
    List Nat → Store × List Pc → Store × List Pc
  | [], st => st
  | i :: rest, (s, pcs) =>
    match pcs[i]? with
    | none => interleave options userID rank now rest (s, pcs)
    | some pc =>
      let r := step options userID rank .ok now s pc
      interleave options userID rank now rest (r.2, pcs.set i r.1)

/-- Number of decisions that have admitted their request. -/
def allows (pcs : List Pc) : Nat :=
  pcs.countP (fun pc => decide (pc = .done .next))



/-! ## Store lemmas -/

theorem find_put_same (s : Store) (now : Nat) (key : String) (r : Record) :
    (s.put key r).find now key = if r.live now then some r else none := by
  simp [Store.find, Store.put]

theorem find_put_other (s : Store) (now : Nat) (key k : String) (r : Record) (h : k ≠ key) :
    (s.put key r).find now k = s.find now k := by
  simp [Store.find, Store.put, h]

theorem put_other (s : Store) (key k : String) (r : Record) (h : k ≠ key) :
    (s.put key r) k = s k := by
  simp [Store.put, h]

theorem put_same (s : Store) (key : String) (r : Record) : (s.put key r) key = some r := by
  simp [Store.put]

theorem find_congr {s1 s2 : Store} {key : String} (h : s1 key = s2 key) (now : Nat) :
    s1.find now key = s2.find now key := by
  simp [Store.find, h]

theorem find_some_of_live {s : Store} {key : String} {r : Record} {now : Nat}
    (h : s key = some r) (hl : r.live now = true) : s.find now key = some r := by
  simp [Store.find, h, hl]

theorem rate_key_injective {a b : String} (h : "rate:" ++ a = "rate:" ++ b) : a = b := by
  have h1 := congrArg String.data h
  simp only [String.data_append] at h1
  exact String.ext (List.append_cancel_left h1)

/-! ### Each command touches its own key only -/

theorem cmdExists_store (now : Nat) (key : String) (s : Store) :
    (cmdExists now key s).2 = s := rfl

theorem cmdGet_store (now : Nat) (key : String) (s : Store) :
    (cmdGet now key s).2 = s := by
  unfold cmdGet
  split <;> rfl

theorem cmdDecr_frame (now : Nat) (key k : String) (s : Store) (h : k ≠ key) :
    (cmdDecr now key s).2 k = s k := by
  unfold cmdDecr
  split
  · split <;> simp [Store.put, h]
  · simp [Store.put, h]

theorem cmdExec_frame (now : Nat) (key k : String) (limit d : Int) (s : Store) (h : k ≠ key) :
    (cmdExec now key limit d s).2 k = s k := by
  unfold cmdExec
  rw [cmdDecr_frame _ _ _ _ h]
  simp [cmdSet, Store.put, h]

theorem call_frame {α : Type} (f : Fault) (op : Store → Except String α × Store) (s : Store)
    (k : String) (h : (op s).2 k = s k) : (call f op s).2 k = s k := by
  cases f <;> simp [call, h]

/-! ### Each command depends on the record of its own key only -/

theorem cmdExists_congr (now : Nat) (key : String) (s1 s2 : Store) (h : s1 key = s2 key) :
    (cmdExists now key s1).1 = (cmdExists now key s2).1 ∧
    (cmdExists now key s1).2 key = (cmdExists now key s2).2 key := by
  simp [cmdExists, find_congr h now, h]

theorem cmdGet_congr (now : Nat) (key : String) (s1 s2 : Store) (h : s1 key = s2 key) :
    (cmdGet now key s1).1 = (cmdGet now key s2).1 ∧
    (cmdGet now key s1).2 key = (cmdGet now key s2).2 key := by
  rw [cmdGet_store, cmdGet_store]
  refine ⟨?_, h⟩
  unfold cmdGet
  rw [find_congr h now]
  cases s2.find now key <;> rfl

theorem cmdDecr_congr (now : Nat) (key : String) (s1 s2 : Store) (h : s1 key = s2 key) :
    (cmdDecr now key s1).1 = (cmdDecr now key s2).1 ∧
    (cmdDecr now key s1).2 key = (cmdDecr now key s2).2 key := by
  unfold cmdDecr
  rw [find_congr h now]
  cases s2.find now key with
  | none => simp [Store.put]
  | some r => cases hd : r.value.decr <;> simp [hd, Store.put, h]

theorem cmdExec_congr (now : Nat) (key : String) (limit d : Int) (s1 s2 : Store)
    (h : s1 key = s2 key) :
    (cmdExec now key limit d s1).1 = (cmdExec now key limit d s2).1 ∧
    (cmdExec now key limit d s1).2 key = (cmdExec now key limit d s2).2 key := by
  unfold cmdExec
  apply cmdDecr_congr
  simp [cmdSet, Store.put, expiryOf, find_congr h now]

theorem call_congr {α : Type} (f : Fault) (op : Store → Except String α × Store)
    (key : String) (s1 s2 : Store) (h : s1 key = s2 key)
    (hop : (op s1).1 = (op s2).1 ∧ (op s1).2 key = (op s2).2 key) :
    (call f op s1).1 = (call f op s2).1 ∧ (call f op s1).2 key = (call f op s2).2 key := by
  cases f <;> simp [call, h, hop]

/-! ## The decision -/

theorem New_str (options : Options) (c : Ctx) (u r : String) (f : Faults) (t : Times)
    (s : Store) (hu : c (withDefaults options).UserIDKey = .str u)
    (hr : c (withDefaults options).RankKey = .str r) :
    New options c f t s = decision (withDefaults options) u r f t s := by
  simp [New, handler, hu, hr]

theorem New_not_str (options : Options) (c : Ctx) (f : Faults) (t : Times) (s : Store)
    (h : (∀ u, c (withDefaults options).UserIDKey ≠ .str u) ∨
      (∀ r, c (withDefaults options).RankKey ≠ .str r)) :
    New options c f t s = ⟨.badRequest, s, []⟩ := by
  unfold New handler
  cases hu : c (withDefaults options).UserIDKey <;>
    cases hr : c (withDefaults options).RankKey <;> simp_all

/-- A decision writes no key other than the one of its identity. -/
theorem decision_frame (options : Options) (u r : String) (f : Faults) (t : Times) (s : Store)
    (k : String) (hk : k ≠ "rate:" ++ u) :
    (decision options u r f t s).store k = s k := by
  have h1 : ∀ s0 : Store, (call f.onExists (cmdExists t.atExists ("rate:" ++ u)) s0).2 k = s0 k :=
    fun s0 => call_frame _ _ _ _ rfl
  have h2 : ∀ (limit : Int) (s0 : Store),
      (call f.onExec (cmdExec t.atExec ("rate:" ++ u) limit options.Duration) s0).2 k = s0 k :=
    fun limit s0 => call_frame _ _ _ _ (cmdExec_frame _ _ _ _ _ _ hk)
  have h3 : ∀ s0 : Store, (call f.onGet (cmdGet t.atGet ("rate:" ++ u)) s0).2 k = s0 k :=
    fun s0 => call_frame _ _ _ _ (by rw [cmdGet_store])
  have h4 : ∀ s0 : Store, (call f.onDecr (cmdDecr t.atDecr ("rate:" ++ u)) s0).2 k = s0 k :=
    fun s0 => call_frame _ _ _ _ (cmdDecr_frame _ _ _ _ hk)
  unfold decision
  simp only []
  repeat' split
  all_goals simp only [h1, h2, h3, h4]

/-- Every command of a decision addresses the key of its identity. -/
theorem decision_log_key (options : Options) (u r : String) (f : Faults) (t : Times) (s : Store) :
    ∀ x ∈ (decision options u r f t s).log, x.cmd.key = "rate:" ++ u := by
  unfold decision
  simp only []
  repeat' split
  all_goals simp [Cmd.key]


/-- A decision depends on the store only through the record of its own key. -/
theorem decision_congr (options : Options) (u r : String) (f : Faults) (t : Times)
    (s1 s2 : Store) (h : s1 ("rate:" ++ u) = s2 ("rate:" ++ u)) :
    (decision options u r f t s1).response = (decision options u r f t s2).response ∧
    (decision options u r f t s1).log = (decision options u r f t s2).log ∧
    (decision options u r f t s1).store ("rate:" ++ u) =
      (decision options u r f t s2).store ("rate:" ++ u) := by
  have e1 := call_congr f.onExists (cmdExists t.atExists ("rate:" ++ u)) _ s1 s2 h
    (cmdExists_congr _ _ _ _ h)
  have e2 := fun limit => call_congr f.onExec
    (cmdExec t.atExec ("rate:" ++ u) limit options.Duration) _ _ _ e1.2
    (cmdExec_congr _ _ _ _ _ _ e1.2)
  have e3 := call_congr f.onGet (cmdGet t.atGet ("rate:" ++ u)) _ _ _ e1.2
    (cmdGet_congr _ _ _ _ e1.2)
  have e4 := call_congr f.onDecr (cmdDecr t.atDecr ("rate:" ++ u)) _ _ _ e3.2
    (cmdDecr_congr _ _ _ _ e3.2)
  unfold decision
  simp only []
  rw [e1.1]
  cases h1 : (call f.onExists (cmdExists t.atExists ("rate:" ++ u)) s2).1 with
  | error e => simpa using e1.2
  | ok exist =>
    try simp only []
    by_cases hx : exist ≠ 1
    · simp only [if_pos hx]
      cases hq : options.QuotaMap r with
      | none => simpa using e1.2
      | some limit =>
        try simp only []
        rw [(e2 limit).1]
        cases h2 : (call f.onExec (cmdExec t.atExec ("rate:" ++ u) limit options.Duration)
          (call f.onExists (cmdExists t.atExists ("rate:" ++ u)) s2).2).1 <;>
          simpa using (e2 limit).2
    · simp only [if_neg hx]
      rw [e3.1]
      cases h2 : (call f.onGet (cmdGet t.atGet ("rate:" ++ u))
        (call f.onExists (cmdExists t.atExists ("rate:" ++ u)) s2).2).1 with
      | error e => simpa using e3.2
      | ok quotaStr =>
        try simp only []
        cases ha : atoi quotaStr with
        | error e => simpa using e3.2
        | ok quota =>
          try simp only []
          by_cases hv : quota ≤ 0
          · simp only [if_pos hv]
            simpa using e3.2
          · simp only [if_neg hv]
            rw [e4.1]
            cases h3 : (call f.onDecr (cmdDecr t.atDecr ("rate:" ++ u))
              (call f.onGet (cmdGet t.atGet ("rate:" ++ u))
                (call f.onExists (cmdExists t.atExists ("rate:" ++ u)) s2).2).2).1 <;>
              simpa using e4.2


/-- Running a decision alone, step by step, is the decision of the handler. -/
theorem runAlone_eq_decision (options : Options) (u r : String) (f : Faults) (t : Times)
    (s : Store) :
    runAlone options u r f t s =
      (.done (decision options u r f t s).response, (decision options u r f t s).store) := by
  unfold runAlone decision
  simp only [step, Faults.at, Times.at]
  cases h1 : (call f.onExists (cmdExists t.atExists ("rate:" ++ u)) s).1 with
  | error e => simp [step]
  | ok exist =>
    by_cases hx : exist ≠ 1
    · simp only [step, Faults.at, Times.at, if_pos hx]
      cases hq : options.QuotaMap r with
      | none => simp [step]
      | some limit =>
        simp only []
        cases h2 : (call f.onExec (cmdExec t.atExec ("rate:" ++ u) limit options.Duration)
          (call f.onExists (cmdExists t.atExists ("rate:" ++ u)) s).2).1 <;> simp [step]
    · simp only [step, Faults.at, Times.at, if_neg hx]
      cases h2 : (call f.onGet (cmdGet t.atGet ("rate:" ++ u))
        (call f.onExists (cmdExists t.atExists ("rate:" ++ u)) s).2).1 with
      | error e => simp [step]
      | ok quotaStr =>
        simp only []
        cases ha : atoi quotaStr with
        | error e => simp [step]
        | ok quota =>
          simp only []
          by_cases hv : quota ≤ 0
          · simp [step, hv]
          · simp only [if_neg hv, step, Faults.at, Times.at]
            cases h3 : (call f.onDecr (cmdDecr t.atDecr ("rate:" ++ u))
              (call f.onGet (cmdGet t.atGet ("rate:" ++ u))
                (call f.onExists (cmdExists t.atExists ("rate:" ++ u)) s).2).2).1 <;> simp [step]


/-! ## Durations -/

theorem withDefaults_Duration_pos (options : Options) (h : 0 ≤ options.Duration) :
    0 < (withDefaults options).Duration := by
  unfold withDefaults
  by_cases h0 : options.Duration = 0
  · simp [h0, Hour, Second]
  · simp only [h0, if_false]
    omega

theorem ttlMs_whole (d : Int) (hd : 0 < d) (hm : d % Millisecond = 0) :
    (ttlMs d : Int) * Millisecond = d := by
  unfold Millisecond at hm
  unfold ttlMs
  cases hp : usePrecise d
  · have hp2 : 1000000000 ≤ d ∧ d % 1000000000 = 0 := by
      simpa [usePrecise, Second] using hp
    have hf : formatSec d = d / 1000000000 := by
      unfold formatSec Second
      rw [if_neg (by omega)]
    simp only [Bool.false_eq_true, if_false, hf, Millisecond]
    push_cast
    rw [Int.toNat_of_nonneg (by omega)]
    omega
  · have hf : formatMs d = d / 1000000 := by
      unfold formatMs Millisecond
      rw [if_neg (by omega)]
    simp only [if_true, hf, Millisecond]
    rw [Int.toNat_of_nonneg (by omega)]
    omega

theorem roundHalfEven_mul (n b : Nat) (hb : 0 < b) : roundHalfEven (n * b) b = n := by
  unfold roundHalfEven
  simp [Nat.mul_div_cancel _ hb, hb]

/-- An integer below `2 ^ 53` is a `float64`: rounding returns it, whatever the
scaling chosen. -/
theorem round64_int (n : Nat) (j : Nat) (h : n < 2 ^ 53) :
    (round64 (n * 2 ^ j) (2 ^ j)).1 / 2 ^ (round64 (n * 2 ^ j) (2 ^ j)).2 = n := by
  have hj : 0 < 2 ^ j := Nat.two_pow_pos _
  unfold round64
  by_cases h0 : n = 0
  · simp [h0]
  · have h1 : n * 2 ^ j ≠ 0 := Nat.mul_ne_zero h0 (Nat.pos_iff_ne_zero.mp hj)
    have h2 : n * 2 ^ j < 2 ^ 53 * 2 ^ j := Nat.mul_lt_mul_of_pos_right h hj
    simp only [h1, if_false, h2, if_true]
    have : n * 2 ^ j * 2 ^ scaleUp 1100 (n * 2 ^ j) (2 ^ j) 0 =
        (n * 2 ^ scaleUp 1100 (n * 2 ^ j) (2 ^ j) 0) * 2 ^ j := by ring
    rw [this, roundHalfEven_mul _ _ hj]
    exact Nat.mul_div_cancel _ (Nat.two_pow_pos _)

theorem secondsNat_whole (k : Nat) (h : k < 2 ^ 53) : secondsNat (k * 1000000000) = k := by
  unfold secondsNat
  have hs : k * 1000000000 / 1000000000 = k := Nat.mul_div_cancel _ (by decide)
  have hn : k * 1000000000 % 1000000000 = 0 := Nat.mul_mod_left _ _
  simp only [hs, hn]
  have hq : round64 0 1000000000 = (0, 0) := by simp [round64]
  simp only [hq, pow_zero, mul_one, zero_mul, add_zero]
  by_cases h0 : k = 0
  · subst h0
    simp [round64]
  · have ha : round64 k 1 = (k * 2 ^ scaleUp 1100 k 1 0, scaleUp 1100 k 1 0) := by
      unfold round64
      have : k < 2 ^ 53 * 1 := by simpa using h
      simp only [h0, if_false, this, if_true]
      congr 1
      have := roundHalfEven_mul (k * 2 ^ scaleUp 1100 k 1 0) 1 (by decide)
      simpa using this
    rw [ha]
    exact round64_int k _ h

theorem seconds_whole (k : Nat) (h : k < 2 ^ 53) : seconds ((k : Int) * Second) = k := by
  unfold seconds Second
  have h0 : (0 : Int) ≤ (k : Int) * 1000000000 := by positivity
  simp only [h0, if_true]
  have : ((k : Int) * 1000000000).toNat = k * 1000000000 := by
    have : ((k : Int) * 1000000000) = ((k * 1000000000 : Nat) : Int) := by push_cast; ring
    rw [this, Int.toNat_ofNat]
  rw [this, secondsNat_whole k h]

/-! ## Decisions without network failure -/

theorem expiryOf_live (s : Store) (now : Nat) (key : String) (d : Int) (v : Value) :
    Record.live now ⟨v, expiryOf s now key d⟩ = true := by
  unfold expiryOf
  by_cases h1 : 0 < d
  · simp [h1, Record.live]
  · simp only [h1, if_false]
    by_cases h2 : d = -1
    · simp only [h2, if_true]
      cases hf : s.find now key with
      | none => simp [Record.live]
      | some r =>
        unfold Store.find at hf
        cases hk : s key with
        | none => simp [hk] at hf
        | some r0 =>
          simp only [hk] at hf
          by_cases hl : r0.live now = true
          · simp only [hl, if_true, Option.some.injEq] at hf
            subst hf
            simpa [Record.live] using hl
          · simp [hl] at hf
    · simp [h2, Record.live]

theorem put_put (s : Store) (key : String) (r1 r2 : Record) :
    (s.put key r1).put key r2 = s.put key r2 := by
  funext k
  by_cases h : k = key <;> simp [Store.put, h]

theorem cmdExec_ok (now : Nat) (key : String) (limit d : Int) (s : Store)
    (h : minInt64 < limit) :
    cmdExec now key limit d s =
      (.ok (limit - 1), s.put key ⟨.int (limit - 1), expiryOf s now key d⟩) := by
  unfold cmdExec cmdSet cmdDecr
  have hl := expiryOf_live s now key d (.int limit)
  have hn : ¬ limit ≤ minInt64 := by omega
  simp [find_put_same, hl, Value.decr, hn, put_put]

theorem decision_opens (options : Options) (u r : String) (t : Times) (s : Store)
    (limit : Int) (hf : s.find t.atExists ("rate:" ++ u) = none)
    (hq : options.QuotaMap r = some limit) (hl : minInt64 < limit) :
    decision options u r noFaults t s =
      ⟨.next, s.put ("rate:" ++ u)
          ⟨.int (limit - 1), expiryOf s t.atExec ("rate:" ++ u) options.Duration⟩,
        [⟨.existsKey ("rate:" ++ u), none⟩,
          ⟨.setDecrTx ("rate:" ++ u) limit options.Duration, none⟩]⟩ := by
  simp [decision, call, noFaults, cmdExists, hf, hq, cmdExec_ok _ _ _ _ _ hl]

theorem decision_decrement (options : Options) (u r : String) (t : Times) (s : Store)
    (v : Int) (ex : Option Nat) (hs : s ("rate:" ++ u) = some ⟨.int v, ex⟩)
    (hw : t.within ⟨.int v, ex⟩ = true) (hv : 0 < v) :
    decision options u r noFaults t s =
      ⟨.next, s.put ("rate:" ++ u) ⟨.int (v - 1), ex⟩,
        [⟨.existsKey ("rate:" ++ u), none⟩, ⟨.getKey ("rate:" ++ u), none⟩,
          ⟨.decrKey ("rate:" ++ u), none⟩]⟩ := by
  simp only [Times.within, Bool.and_eq_true] at hw
  have h1 := find_some_of_live hs hw.1.1
  have h2 := find_some_of_live hs hw.1.2
  have h3 := find_some_of_live hs hw.2
  have hv2 : ¬ v ≤ 0 := by omega
  have hv3 : ¬ v ≤ minInt64 := by unfold minInt64; omega
  simp [decision, call, noFaults, cmdExists, cmdGet, cmdDecr, h1, h2, h3, Value.get, atoi,
    Value.decr, hv2, hv3]

theorem decision_denies (options : Options) (u r : String) (t : Times) (s : Store)
    (v : Int) (ex : Option Nat) (hs : s ("rate:" ++ u) = some ⟨.int v, ex⟩)
    (hw : t.within ⟨.int v, ex⟩ = true) (hv : v ≤ 0) :
    decision options u r noFaults t s =
      ⟨.tooManyRequests (seconds options.Duration), s,
        [⟨.existsKey ("rate:" ++ u), none⟩, ⟨.getKey ("rate:" ++ u), none⟩]⟩ := by
  simp only [Times.within, Bool.and_eq_true] at hw
  have h1 := find_some_of_live hs hw.1.1
  have h2 := find_some_of_live hs hw.1.2
  simp [decision, call, noFaults, cmdExists, cmdGet, h1, h2, Value.get, atoi, hv]

theorem within_value (t : Times) (v w : Value) (ex : Option Nat) :
    t.within ⟨v, ex⟩ = t.within ⟨w, ex⟩ := rfl

/-- Decisions served on a live record of value `v`: `v` are admitted, the next one
is denied, and the record ends at value 0 with its expiry untouched. -/
theorem serve_live (options : Options) (c : Ctx) (userID rank : String)
    (hu : c (withDefaults options).UserIDKey = .str userID)
    (hr : c (withDefaults options).RankKey = .str rank) (ex : Option Nat) :
    ∀ (v : Nat) (ts : List Times) (s : Store),
      s ("rate:" ++ userID) = some ⟨.int (v : Int), ex⟩ →
      (∀ t ∈ ts, t.within ⟨.int 0, ex⟩ = true) → ts.length = v + 1 →
      (serve options c ts s).1 = List.replicate v .next ++
        [.tooManyRequests (seconds (withDefaults options).Duration)] ∧
      (serve options c ts s).2 ("rate:" ++ userID) = some ⟨.int 0, ex⟩ := by
  intro v
  induction v with
  | zero =>
    intro ts s hs hl hlen
    match ts, hlen with
    | [t], _ =>
      have hw : t.within ⟨.int ((0 : Nat) : Int), ex⟩ = true := hl t (by simp)
      simp only [serve, New_str options c userID rank noFaults t s hu hr]
      rw [decision_denies _ _ _ _ _ _ _ hs hw (by simp)]
      simpa using hs
  | succ v ih =>
    intro ts s hs hl hlen
    match ts, hlen with
    | t :: ts, hlen =>
      have hw : t.within ⟨.int ((v + 1 : Nat) : Int), ex⟩ = true := hl t (by simp)
      simp only [serve, New_str options c userID rank noFaults t s hu hr]
      rw [decision_decrement _ _ _ _ _ _ _ hs hw (by omega)]
      have hs2 : (s.put ("rate:" ++ userID) ⟨.int (((v + 1 : Nat) : Int) - 1), ex⟩)
          ("rate:" ++ userID) = some ⟨.int (v : Int), ex⟩ := by
        simp [Store.put]
      have := ih ts _ hs2 (fun t ht => hl t (by simp [ht])) (by simpa using hlen)
      simp only [this.1, this.2, List.replicate_succ, List.cons_append, and_self]


/-! ## Claims -/

/-- C3 (as amended): a decision whose identity local or rank local is absent or
is not a string answers 400 "Missing userID or rank in Locals", issues no store
command and leaves the store as it was. -/
theorem missing_local_badRequest (options : Options) (c : Ctx) (f : Faults) (t : Times)
    (s : Store)
    (h : (∀ u, c (withDefaults options).UserIDKey ≠ .str u) ∨
      (∀ r, c (withDefaults options).RankKey ≠ .str r)) :
    (New options c f t s).response = .badRequest ∧
    (New options c f t s).log = [] ∧
    (New options c f t s).store = s := by
  rw [New_not_str options c f t s h]
  exact ⟨rfl, rfl, rfl⟩

/-- C4 (as amended): with a rank that is not a key of the quota map, when the
store holds no live record for the identity and the existence check succeeds, the
decision answers 403 "Invalid rank" after exactly one store command, the existence
check, and leaves the store as it was. -/
theorem unknown_rank_fresh_forbidden (options : Options) (c : Ctx) (userID rank : String)
    (f : Faults) (t : Times) (s : Store)
    (hu : c (withDefaults options).UserIDKey = .str userID)
    (hr : c (withDefaults options).RankKey = .str rank)
    (hq : options.QuotaMap rank = none)
    (hfresh : s.find t.atExists ("rate:" ++ userID) = none)
    (hok : f.onExists = .ok) :
    (New options c f t s).response = .fiberError 403 "Invalid rank" ∧
    (New options c f t s).log = [⟨.existsKey ("rate:" ++ userID), none⟩] ∧
    (New options c f t s).store = s := by
  rw [New_str options c userID rank f t s hu hr]
  have hq2 : (withDefaults options).QuotaMap rank = none := hq
  simp [decision, call, hok, cmdExists, hfresh, hq2]

/-- C7: if a store command issued by a decision fails with message `msg`, the
decision answers with the 500 error carrying `msg` (so neither admits nor answers
429), the failed command is the last one issued, every command before it succeeded
and none of them is the same command (no retry). -/
theorem store_failure_surfaced (options : Options) (c : Ctx) (f : Faults) (t : Times)
    (s : Store) (cmd : Cmd) (msg : String)
    (h : (⟨cmd, some msg⟩ : Call) ∈ (New options c f t s).log) :
    (New options c f t s).response = .fiberError 500 msg ∧
    (New options c f t s).response ≠ .next ∧
    (∀ n, (New options c f t s).response ≠ .tooManyRequests n) ∧
    ∃ before, (New options c f t s).log = before ++ [⟨cmd, some msg⟩] ∧
      ∀ x ∈ before, x.err = none ∧ x.cmd ≠ cmd := by
  revert h
  unfold New handler
  cases hu : c (withDefaults options).UserIDKey <;>
    cases hr : c (withDefaults options).RankKey <;> simp
  unfold decision
  simp only []
  repeat' split
  all_goals
    intro hm
    simp at hm
  all_goals
    obtain ⟨rfl, rfl⟩ := hm
    refine ⟨rfl, by simp, by simp, ?_⟩
    first
      | exact ⟨[], rfl, by simp⟩
      | exact ⟨[_], rfl, by simp⟩
      | exact ⟨[_, _], rfl, by simp⟩

/-- C10: a decision for identity `a` addresses only the key "rate:" ++ a; the
record of another identity `b` is untouched, and a later decision for `b` gives
the same response and the same record for `b` as if the decision for `a` had not
taken place. -/
theorem other_identity_untouched (options : Options) (ca cb : Ctx) (a b : String)
    (fa fb : Faults) (now later : Times) (s : Store) (hab : a ≠ b)
    (ha : ca (withDefaults options).UserIDKey = .str a)
    (hb : cb (withDefaults options).UserIDKey = .str b) :
    (New options ca fa now s).store ("rate:" ++ b) = s ("rate:" ++ b) ∧
    (∀ x ∈ (New options ca fa now s).log, x.cmd.key = "rate:" ++ a) ∧
    (New options cb fb later (New options ca fa now s).store).response =
      (New options cb fb later s).response ∧
    (New options cb fb later (New options ca fa now s).store).store ("rate:" ++ b) =
      (New options cb fb later s).store ("rate:" ++ b) := by
  have hne : "rate:" ++ b ≠ "rate:" ++ a := fun h => hab (rate_key_injective h).symm
  have h1 : (New options ca fa now s).store ("rate:" ++ b) = s ("rate:" ++ b) := by
    unfold New handler
    cases hr : ca (withDefaults options).RankKey <;> simp [ha]
    exact decision_frame _ _ _ _ _ _ _ hne
  have h2 : ∀ x ∈ (New options ca fa now s).log, x.cmd.key = "rate:" ++ a := by
    unfold New handler
    cases hr : ca (withDefaults options).RankKey <;> simp [ha]
    exact decision_log_key _ _ _ _ _ _
  refine ⟨h1, h2, ?_, ?_⟩
  · unfold New handler at h1 ⊢
    cases hr : cb (withDefaults options).RankKey <;> simp [hb]
    exact (decision_congr _ _ _ _ _ _ _ h1).1
  · unfold New handler at h1 ⊢
    cases hr : cb (withDefaults options).RankKey <;> simp [hb]
    · exact h1
    · exact (decision_congr _ _ _ _ _ _ _ h1).2.2
    · exact h1


/-- C1 (as amended): for a rank of limit `N` with `N ≥ 1` and an identity without
live record, `N + 1` consecutive decisions without store failure, every command
of the later ones executed while the record created by the first one is live,
give `N` admissions followed by one 429; the record then holds 0 and keeps the
expiry written by the first decision. -/
theorem first_N_allowed_then_denied (options : Options) (c : Ctx) (userID rank : String)
    (N : Nat) (t0 : Times) (ts : List Times) (s : Store)
    (hN : 1 ≤ N)
    (hu : c (withDefaults options).UserIDKey = .str userID)
    (hr : c (withDefaults options).RankKey = .str rank)
    (hq : options.QuotaMap rank = some (N : Int))
    (hfresh : s.find t0.atExists ("rate:" ++ userID) = none)
    (hlen : ts.length = N)
    (hwin : ∀ t ∈ ts, t.within ⟨.int 0,
      expiryOf s t0.atExec ("rate:" ++ userID) (withDefaults options).Duration⟩ = true) :
    (serve options c (t0 :: ts) s).1 = List.replicate N .next ++
      [.tooManyRequests (seconds (withDefaults options).Duration)] ∧
    (serve options c (t0 :: ts) s).2 ("rate:" ++ userID) =
      some ⟨.int 0, expiryOf s t0.atExec ("rate:" ++ userID) (withDefaults options).Duration⟩ := by
  obtain ⟨n, rfl⟩ : ∃ n, N = n + 1 := ⟨N - 1, by omega⟩
  have hq2 : (withDefaults options).QuotaMap rank = some ((n + 1 : Nat) : Int) := hq
  have hmin : minInt64 < ((n + 1 : Nat) : Int) := by unfold minInt64; omega
  simp only [serve, New_str options c userID rank noFaults t0 s hu hr]
  rw [decision_opens _ _ _ _ _ _ hfresh hq2 hmin]
  have hs2 : (s.put ("rate:" ++ userID) ⟨.int (((n + 1 : Nat) : Int) - 1),
      expiryOf s t0.atExec ("rate:" ++ userID) (withDefaults options).Duration⟩)
      ("rate:" ++ userID) = some ⟨.int (n : Int),
        expiryOf s t0.atExec ("rate:" ++ userID) (withDefaults options).Duration⟩ := by
    simp [Store.put]
  have := serve_live options c userID rank hu hr
    (expiryOf s t0.atExec ("rate:" ++ userID) (withDefaults options).Duration)
    n ts _ hs2 hwin hlen
  simp only [this.1, this.2, List.replicate_succ, List.cons_append, and_self]

/-- C5 (as amended): when the store holds no live record for the identity (never
created, or expired), the rank has a limit `N` above the smallest `int` and the
configured window is not negative, the decision admits the request and leaves
under the identity key a record of value `N - 1` whose time-to-live is the window
in whole milliseconds, `ttlMs` (rounded down, 1 ms for a shorter window): the
window itself when it is a whole number of milliseconds. The existence check and
the transaction are taken to succeed. -/
theorem fresh_window_allow (options : Options) (c : Ctx) (userID rank : String) (N : Int)
    (f : Faults) (t : Times) (s : Store)
    (hu : c (withDefaults options).UserIDKey = .str userID)
    (hr : c (withDefaults options).RankKey = .str rank)
    (hq : options.QuotaMap rank = some N)
    (hfresh : s.find t.atExists ("rate:" ++ userID) = none)
    (hok : f.onExists = .ok ∧ f.onExec = .ok)
    (hN : minInt64 < N)
    (hD : 0 ≤ options.Duration) :
    (New options c f t s).response = .next ∧
    (New options c f t s).store ("rate:" ++ userID) =
      some ⟨.int (N - 1), some (t.atExec + ttlMs (withDefaults options).Duration)⟩ ∧
    ((New options c f t s).store ("rate:" ++ userID)).map (Record.ttl t.atExec) =
      some (some (ttlMs (withDefaults options).Duration)) ∧
    ((withDefaults options).Duration % Millisecond = 0 →
      (ttlMs (withDefaults options).Duration : Int) * Millisecond =
        (withDefaults options).Duration) := by
  rw [New_str options c userID rank f t s hu hr]
  have hq2 : (withDefaults options).QuotaMap rank = some N := hq
  have hd := withDefaults_Duration_pos options hD
  refine ⟨?_, ?_, ?_, fun hm => ttlMs_whole _ hd hm⟩ <;>
    simp [decision, call, hok.1, hok.2, cmdExists, hfresh, hq2, cmdExec_ok _ _ _ _ _ hN,
      Store.put, expiryOf, hd, Record.ttl]

/-- C6 (as amended): whenever a decision answers 429, the `Retry-After` value is
`int(Duration.Seconds())` of the configured window, whatever the store holds and
whenever the decision is taken; for a window of a whole number of seconds it is
that number. -/
theorem deny_retryAfter_full_window (options : Options) (c : Ctx) (f : Faults) (t : Times)
    (s : Store) (retryAfter : Int)
    (h : (New options c f t s).response = .tooManyRequests retryAfter) :
    retryAfter = seconds (withDefaults options).Duration ∧
    ∀ k : Nat, k < 2 ^ 53 → (withDefaults options).Duration = (k : Int) * Second →
      retryAfter = k := by
  have key : retryAfter = seconds (withDefaults options).Duration := by
    revert h
    unfold New handler
    cases hu : c (withDefaults options).UserIDKey <;>
      cases hr : c (withDefaults options).RankKey <;> simp
    unfold decision
    simp only []
    repeat' split
    all_goals
      intro h
      simp at h
    exact h.symm
  refine ⟨key, fun k hk hd => ?_⟩
  rw [key, hd, seconds_whole k hk]


/-! ## Concrete runs -/

/-- C1 witness: limit 3, window 60 s, identity "u1": a first decision at server
time 0 and three more at 10, 20 and 30 ms are admitted three times and then
denied. -/
theorem first_N_allowed_then_denied_witness :
    (1 ≤ 3 ∧ exampleOptions.QuotaMap "free" = some ((3 : Nat) : Int) ∧
      emptyStore.find (Times.same 0).atExists ("rate:" ++ "u1") = none) ∧
    ((serve exampleOptions (ctxOf exampleOptions "u1" "free")
        (Times.same 0 :: [⟨10, 10, 11, 12⟩, ⟨20, 20, 21, 22⟩, ⟨30, 30, 31, 32⟩]) emptyStore).1 =
      List.replicate 3 .next ++
        [.tooManyRequests (seconds (withDefaults exampleOptions).Duration)] ∧
    (serve exampleOptions (ctxOf exampleOptions "u1" "free")
        (Times.same 0 :: [⟨10, 10, 11, 12⟩, ⟨20, 20, 21, 22⟩, ⟨30, 30, 31, 32⟩]) emptyStore).2
      ("rate:" ++ "u1") =
      some ⟨.int 0, expiryOf emptyStore (Times.same 0).atExec ("rate:" ++ "u1")
        (withDefaults exampleOptions).Duration⟩) :=
  ⟨by decide,
    first_N_allowed_then_denied exampleOptions (ctxOf exampleOptions "u1" "free") "u1" "free"
      3 (Times.same 0) [⟨10, 10, 11, 12⟩, ⟨20, 20, 21, 22⟩, ⟨30, 30, 31, 32⟩] emptyStore
      (by decide) (by decide) (by decide) (by decide) (by decide) (by decide) (by decide)⟩

/-- C1 counterexample: a rank of limit 0 and a fresh identity: the claim asks for
a denial of the first (0 + 1 = 1st) decision, the handler admits it. -/
theorem zero_limit_counterexample :
    zeroOptions.QuotaMap "blocked" = some 0 ∧
    emptyStore.find 0 "rate:u1" = none ∧
    (serve zeroOptions (ctxOf zeroOptions "u1" "blocked") [Times.same 0] emptyStore).1 =
      [.next] ∧
    (serve zeroOptions (ctxOf zeroOptions "u1" "blocked") [Times.same 0] emptyStore).1 ≠
      List.replicate 0 .next ++ [.tooManyRequests (seconds (withDefaults zeroOptions).Duration)] := by
  decide

/-- C2, the race at the opening of a window: limit 1, two concurrent decisions for
the fresh identity "u1"; both run `Exists` before either runs the transaction,
and both are admitted: 2 admissions in one window against a limit of 1. The same
two decisions run one after the other give 1 admission. -/
theorem race_exceeds_limit :
    singleOptions.QuotaMap "free" = some 1 ∧
    allows (interleave singleOptions "u1" "free" 0 [0, 1, 0, 1]
      (emptyStore, [.start, .start])).2 = 2 ∧
    allows (interleave singleOptions "u1" "free" 0 [0, 0, 0, 1, 1, 1]
      (emptyStore, [.start, .start])).2 = 1 := by
  decide

/-- C3 witness: no identity stored in the locals. -/
theorem missing_local_badRequest_witness :
    (∀ u, (fun _ => Local.absent) (withDefaults exampleOptions).UserIDKey ≠ Local.str u) ∧
    ((New exampleOptions (fun _ => .absent) noFaults (Times.same 0) emptyStore).response =
      .badRequest ∧
    (New exampleOptions (fun _ => .absent) noFaults (Times.same 0) emptyStore).log = [] ∧
    (New exampleOptions (fun _ => .absent) noFaults (Times.same 0) emptyStore).store =
      emptyStore) :=
  ⟨fun _ h => Local.noConfusion h,
    missing_local_badRequest exampleOptions (fun _ => .absent) noFaults (Times.same 0) emptyStore
      (Or.inl (fun _ h => Local.noConfusion h))⟩

/-- C3 counterexample: the empty string as identity is not answered with 400: the
decision runs on key "rate:", issues two store commands and admits the request. -/
theorem empty_identity_counterexample :
    (New exampleOptions (ctxOf exampleOptions "" "free") noFaults (Times.same 0)
      emptyStore).response ≠ .badRequest ∧
    (New exampleOptions (ctxOf exampleOptions "" "free") noFaults (Times.same 0)
      emptyStore).response = .next ∧
    (New exampleOptions (ctxOf exampleOptions "" "free") noFaults (Times.same 0)
      emptyStore).log =
      [⟨.existsKey "rate:", none⟩, ⟨.setDecrTx "rate:" 3 (60 * Second), none⟩] := by
  decide

/-- C4 witness: unknown rank "gold", fresh identity. -/
theorem unknown_rank_fresh_forbidden_witness :
    (exampleOptions.QuotaMap "gold" = none ∧
      emptyStore.find (Times.same 0).atExists ("rate:" ++ "u1") = none) ∧
    ((New exampleOptions (ctxOf exampleOptions "u1" "gold") noFaults (Times.same 0)
      emptyStore).response = .fiberError 403 "Invalid rank" ∧
    (New exampleOptions (ctxOf exampleOptions "u1" "gold") noFaults (Times.same 0)
      emptyStore).log = [⟨.existsKey ("rate:" ++ "u1"), none⟩] ∧
    (New exampleOptions (ctxOf exampleOptions "u1" "gold") noFaults (Times.same 0)
      emptyStore).store = emptyStore) :=
  ⟨by decide,
    unknown_rank_fresh_forbidden exampleOptions (ctxOf exampleOptions "u1" "gold") "u1" "gold"
      noFaults (Times.same 0) emptyStore (by decide) (by decide) (by decide) (by decide) rfl⟩

/-- C4 counterexample: unknown rank "gold" while "u1" has a live record of value 2:
the rank is never looked up, the request is admitted after three store commands;
and on the empty store the 403 comes after one store command, not zero. -/
theorem unknown_rank_live_counterexample :
    exampleOptions.QuotaMap "gold" = none ∧
    (New exampleOptions (ctxOf exampleOptions "u1" "gold") noFaults (Times.same 0)
      (emptyStore.put "rate:u1" ⟨.int 2, some 60000⟩)).response = .next ∧
    (New exampleOptions (ctxOf exampleOptions "u1" "gold") noFaults (Times.same 0)
      (emptyStore.put "rate:u1" ⟨.int 2, some 60000⟩)).log =
      [⟨.existsKey "rate:u1", none⟩, ⟨.getKey "rate:u1", none⟩, ⟨.decrKey "rate:u1", none⟩] ∧
    (New exampleOptions (ctxOf exampleOptions "u1" "gold") noFaults (Times.same 0)
      emptyStore).log.length = 1 := by
  decide

/-- C5 witness: the record of "u1" expired at server time 60000 ms; a decision at
70000 ms opens a new window: admitted, value 3 - 1, time-to-live 60000 ms. -/
theorem fresh_window_allow_witness :
    (exampleOptions.QuotaMap "free" = some 3 ∧
      (emptyStore.put "rate:u1" ⟨.int 0, some 60000⟩).find (Times.same 70000).atExists
        ("rate:" ++ "u1") = none ∧
      minInt64 < 3 ∧ 0 ≤ exampleOptions.Duration ∧
      ttlMs (withDefaults exampleOptions).Duration = 60000) ∧
    ((New exampleOptions (ctxOf exampleOptions "u1" "free") noFaults (Times.same 70000)
      (emptyStore.put "rate:u1" ⟨.int 0, some 60000⟩)).response = .next ∧
    (New exampleOptions (ctxOf exampleOptions "u1" "free") noFaults (Times.same 70000)
      (emptyStore.put "rate:u1" ⟨.int 0, some 60000⟩)).store ("rate:" ++ "u1") =
      some ⟨.int (3 - 1),
        some ((Times.same 70000).atExec + ttlMs (withDefaults exampleOptions).Duration)⟩ ∧
    ((New exampleOptions (ctxOf exampleOptions "u1" "free") noFaults (Times.same 70000)
      (emptyStore.put "rate:u1" ⟨.int 0, some 60000⟩)).store ("rate:" ++ "u1")).map
        (Record.ttl (Times.same 70000).atExec) =
      some (some (ttlMs (withDefaults exampleOptions).Duration)) ∧
    ((withDefaults exampleOptions).Duration % Millisecond = 0 →
      (ttlMs (withDefaults exampleOptions).Duration : Int) * Millisecond =
        (withDefaults exampleOptions).Duration)) :=
  ⟨by decide,
    fresh_window_allow exampleOptions (ctxOf exampleOptions "u1" "free") "u1" "free" 3
      noFaults (Times.same 70000) (emptyStore.put "rate:u1" ⟨.int 0, some 60000⟩)
      (by decide) (by decide) (by decide) (by decide) ⟨rfl, rfl⟩ (by decide) (by decide)⟩

/-- C5 counterexample, three fresh windows in which the claim fails: with a window
of 2.5 ms the record gets a time-to-live of 2 ms; with a limit equal to the
smallest `int` the `DECR` of the transaction overflows, the handler answers 500
and the record keeps the limit itself; with a window of -5 s the record gets no
expiry at all. -/
theorem fresh_window_counterexample :
    ((New fractionalOptions (ctxOf fractionalOptions "u1" "free") noFaults (Times.same 0)
      emptyStore).store "rate:u1").map (Record.ttl 0) = some (some 2) ∧
    (2 : Int) * Millisecond ≠ (withDefaults fractionalOptions).Duration ∧
    (New minLimitOptions (ctxOf minLimitOptions "u1" "owing") noFaults (Times.same 0)
      emptyStore).response = .fiberError 500 "ERR increment or decrement would overflow" ∧
    (New minLimitOptions (ctxOf minLimitOptions "u1" "owing") noFaults (Times.same 0)
      emptyStore).store "rate:u1" = some ⟨.int minInt64, some 60000⟩ ∧
    (New negativeOptions (ctxOf negativeOptions "u1" "free") noFaults (Times.same 0)
      emptyStore).response = .next ∧
    (New negativeOptions (ctxOf negativeOptions "u1" "free") noFaults (Times.same 0)
      emptyStore).store "rate:u1" = some ⟨.int 2, none⟩ := by
  decide

/-- C6 witness: an exhausted live record, window 60 s: `Retry-After: 60`. -/
theorem deny_retryAfter_full_window_witness :
    (New exampleOptions (ctxOf exampleOptions "u1" "free") noFaults (Times.same 0)
      (emptyStore.put "rate:u1" ⟨.int 0, some 60000⟩)).response = .tooManyRequests 60 ∧
    (60 = seconds (withDefaults exampleOptions).Duration ∧
      ∀ k : Nat, k < 2 ^ 53 → (withDefaults exampleOptions).Duration = (k : Int) * Second →
        (60 : Int) = k) :=
  ⟨by decide,
    deny_retryAfter_full_window exampleOptions (ctxOf exampleOptions "u1" "free") noFaults
      (Times.same 0) (emptyStore.put "rate:u1" ⟨.int 0, some 60000⟩) 60 (by decide)⟩

/-- C6 counterexample: limit 3, window 60 s; three admissions at server time 0, a
fourth decision 50 s later is denied with `Retry-After: 60` although the record
expires 10 s later. And with a window of 16777216.999999999 s the value is
16777217, more than the window. -/
theorem retryAfter_not_ttl_counterexample :
    (serve exampleOptions (ctxOf exampleOptions "u1" "free")
      [Times.same 0, Times.same 0, Times.same 0, Times.same 50000] emptyStore).1 =
      [.next, .next, .next, .tooManyRequests 60] ∧
    ((serve exampleOptions (ctxOf exampleOptions "u1" "free")
      [Times.same 0, Times.same 0, Times.same 0, Times.same 50000] emptyStore).2
        "rate:u1").map (Record.ttl 50000) = some (some 10000) ∧
    (New longOptions (ctxOf longOptions "u1" "free") noFaults (Times.same 0)
      (emptyStore.put "rate:u1" ⟨.int 0, some 60000⟩)).response =
      .tooManyRequests 16777217 ∧
    (withDefaults longOptions).Duration < 16777217 * Second := by
  decide

/-- C7 witness: the transaction of a fresh window fails with "connection refused". -/
theorem store_failure_surfaced_witness :
    (⟨.setDecrTx "rate:u1" 3 (60 * Second), some "connection refused"⟩ : Call) ∈
      (New exampleOptions (ctxOf exampleOptions "u1" "free")
        ⟨.ok, .lost "connection refused", .ok, .ok⟩ (Times.same 0) emptyStore).log ∧
    ((New exampleOptions (ctxOf exampleOptions "u1" "free")
        ⟨.ok, .lost "connection refused", .ok, .ok⟩ (Times.same 0) emptyStore).response =
      .fiberError 500 "connection refused" ∧
    (New exampleOptions (ctxOf exampleOptions "u1" "free")
        ⟨.ok, .lost "connection refused", .ok, .ok⟩ (Times.same 0) emptyStore).response ≠
      .next ∧
    (∀ n, (New exampleOptions (ctxOf exampleOptions "u1" "free")
        ⟨.ok, .lost "connection refused", .ok, .ok⟩ (Times.same 0) emptyStore).response ≠
      .tooManyRequests n) ∧
    ∃ before, (New exampleOptions (ctxOf exampleOptions "u1" "free")
        ⟨.ok, .lost "connection refused", .ok, .ok⟩ (Times.same 0) emptyStore).log =
        before ++ [⟨.setDecrTx "rate:u1" 3 (60 * Second), some "connection refused"⟩] ∧
      ∀ x ∈ before, x.err = none ∧ x.cmd ≠ .setDecrTx "rate:u1" 3 (60 * Second)) :=
  ⟨by decide,
    store_failure_surfaced exampleOptions (ctxOf exampleOptions "u1" "free")
      ⟨.ok, .lost "connection refused", .ok, .ok⟩ (Times.same 0) emptyStore
      (.setDecrTx "rate:u1" 3 (60 * Second)) "connection refused" (by decide)⟩

/-- C8, a record created under an unknown rank: "u1" has a live record of value 2
that expires at server time 60000 ms; a request with the unknown rank "gold" runs
`Exists` at 59990 and `Get` at 59995, both on the live record, and `Decr` at 60010,
after the expiry. `DECR` creates the key anew: the request is admitted and a
record of value -1 without expiry stays, live at every later instant, where the
store held no live record. -/
theorem unknown_rank_recreates_record :
    exampleOptions.QuotaMap "gold" = none ∧
    (emptyStore.put "rate:u1" ⟨.int 2, some 60000⟩).find 60010 "rate:u1" = none ∧
    (New exampleOptions (ctxOf exampleOptions "u1" "gold") noFaults ⟨59990, 59990, 59995, 60010⟩
      (emptyStore.put "rate:u1" ⟨.int 2, some 60000⟩)).response = .next ∧
    (New exampleOptions (ctxOf exampleOptions "u1" "gold") noFaults ⟨59990, 59990, 59995, 60010⟩
      (emptyStore.put "rate:u1" ⟨.int 2, some 60000⟩)).store "rate:u1" =
      some ⟨.int (-1), none⟩ ∧
    ((New exampleOptions (ctxOf exampleOptions "u1" "gold") noFaults
      ⟨59990, 59990, 59995, 60010⟩
      (emptyStore.put "rate:u1" ⟨.int 2, some 60000⟩)).store.find 60010 "rate:u1").isSome =
      true ∧
    ((New exampleOptions (ctxOf exampleOptions "u1" "gold") noFaults
      ⟨59990, 59990, 59995, 60010⟩
      (emptyStore.put "rate:u1" ⟨.int 2, some 60000⟩)).store.find 90000000 "rate:u1").isSome =
      true ∧
    ((emptyStore.put "rate:u1" ⟨.int 2, some 60000⟩).find 90000000 "rate:u1").isSome =
      false := by
  decide

/-- C9, an expiry replaced during a decision on a live record: "u1" has a live
record of value 2 that expires at server time 60000 ms; a request of rank "free"
runs `Exists` at 59990 and `Get` at 59995 on the live record and `Decr` at 60010,
after the expiry. The record left has value -1 and no expiry instead of the
expiry 60000: the window is no longer anchored to the first request, and a later
request, here a day later, is still denied. -/
theorem expiry_lost_on_late_decrement :
    (emptyStore.put "rate:u1" ⟨.int 2, some 60000⟩).find 59990 "rate:u1" =
      some ⟨.int 2, some 60000⟩ ∧
    (New exampleOptions (ctxOf exampleOptions "u1" "free") noFaults ⟨59990, 59990, 59995, 60010⟩
      (emptyStore.put "rate:u1" ⟨.int 2, some 60000⟩)).response = .next ∧
    ((New exampleOptions (ctxOf exampleOptions "u1" "free") noFaults
      ⟨59990, 59990, 59995, 60010⟩
      (emptyStore.put "rate:u1" ⟨.int 2, some 60000⟩)).store "rate:u1").map Record.expiresAt =
      some none ∧
    (New exampleOptions (ctxOf exampleOptions "u1" "free") noFaults (Times.same 86400000)
      (New exampleOptions (ctxOf exampleOptions "u1" "free") noFaults
        ⟨59990, 59990, 59995, 60010⟩
        (emptyStore.put "rate:u1" ⟨.int 2, some 60000⟩)).store).response =
      .tooManyRequests 60 := by
  decide

/-- C10 witness: a decision for "u1" and a later one for "u2", which has a live
record of value 1. -/
theorem other_identity_untouched_witness :
    "u1" ≠ "u2" ∧
    ((New exampleOptions (ctxOf exampleOptions "u1" "free") noFaults (Times.same 0)
      (emptyStore.put "rate:u2" ⟨.int 1, some 60000⟩)).store ("rate:" ++ "u2") =
      (emptyStore.put "rate:u2" ⟨.int 1, some 60000⟩) ("rate:" ++ "u2") ∧
    (∀ x ∈ (New exampleOptions (ctxOf exampleOptions "u1" "free") noFaults (Times.same 0)
      (emptyStore.put "rate:u2" ⟨.int 1, some 60000⟩)).log, x.cmd.key = "rate:" ++ "u1") ∧
    (New exampleOptions (ctxOf exampleOptions "u2" "free") noFaults (Times.same 7)
      (New exampleOptions (ctxOf exampleOptions "u1" "free") noFaults (Times.same 0)
        (emptyStore.put "rate:u2" ⟨.int 1, some 60000⟩)).store).response =
      (New exampleOptions (ctxOf exampleOptions "u2" "free") noFaults (Times.same 7)
        (emptyStore.put "rate:u2" ⟨.int 1, some 60000⟩)).response ∧
    (New exampleOptions (ctxOf exampleOptions "u2" "free") noFaults (Times.same 7)
      (New exampleOptions (ctxOf exampleOptions "u1" "free") noFaults (Times.same 0)
        (emptyStore.put "rate:u2" ⟨.int 1, some 60000⟩)).store).store ("rate:" ++ "u2") =
      (New exampleOptions (ctxOf exampleOptions "u2" "free") noFaults (Times.same 7)
        (emptyStore.put "rate:u2" ⟨.int 1, some 60000⟩)).store ("rate:" ++ "u2")) :=
  ⟨by decide,
    other_identity_untouched exampleOptions (ctxOf exampleOptions "u1" "free")
      (ctxOf exampleOptions "u2" "free") "u1" "u2" noFaults noFaults (Times.same 0)
      (Times.same 7) (emptyStore.put "rate:u2" ⟨.int 1, some 60000⟩)
      (by decide) (by decide) (by decide)⟩

end RateLimiter
